import Mathlib

/-!
Verification of the dependency-injection container of
`src/utils/DependencyContainer.js`.

The container is embedded shallowly:

* JavaScript `Map`s become association lists (`JsMap`) that keep insertion
  order, update in place on `set` of an existing key, and append new keys —
  exactly the observable `Map` semantics used by the source.
* The mutable container object becomes an explicit `Container` state record
  threaded through every operation.
* Object identity is modelled by tagging every constructed instance with a
  heap id (`Value.id`); the fresh-id supply of the JavaScript heap lives in
  the `nextId` field of the state.  A factory receives the current fresh id
  and returns the produced value together with the advanced supply.
* Exceptions become `Except JsError`; the `try`/`finally` of
  `_resolveDependencies` becomes explicit clean-up on both outcomes.
* The unbounded recursion `resolve` → `_createInstance` →
  `_resolveDependencies` → `resolve` is given a fuel parameter; a result
  `none` means the fuel ran out before the source's recursion finished.
* `invoked` is a ghost log of factory invocations (service names, in
  invocation order) used to state "the factory is invoked n times"; no
  operation of the source reads it.
-/

namespace DIC

/-- A JavaScript runtime value produced by a factory or registered directly.
`id` models reference identity (two values are the same object exactly when
the whole record is equal; freshly constructed objects get distinct ids from
the heap supply).  `disposeMethod` models the optional `dispose` method used
by `dispose()`: `none` = no such method, `some none` = a `dispose()` that
returns normally, `some (some msg)` = a `dispose()` that throws `msg`. -/
structure Value where
  id : Nat
  disposeMethod : Option (Option String)
deriving DecidableEq, Repr

/-- Exceptions thrown by the container or by user factories.
`serviceNotFound name` is `new Error("Service '<name>' is not registered")`
(line 115); `circularDependency name` is
`new Error("Circular dependency detected for service '<name>'")` (line 207);
`userError` is any exception raised inside user-supplied code. -/
inductive JsError where
  | serviceNotFound (name : String)
  | circularDependency (name : String)
  | userError (msg : String)
deriving DecidableEq, Repr

/-- The `factory` field of a registration: `_createInstance` (line 222)
branches on `typeof config.factory === 'function'`.  A function factory
receives the fresh-id supply and the resolved dependencies and either throws
or returns the instance and the advanced supply. -/
inductive Factory where
  | fn (f : Nat → List Value → Except JsError (Value × Nat))
  | value (v : Value)

/-- The configuration object built by `register` (lines 51-56). -/
structure ServiceConfig where
  factory : Factory
  lifecycle : String
  dependencies : List String

/-- The `options` argument of `register`.  A field `none` models an absent
property (so the default survives the trailing `...options` spread). -/
structure RegisterOptions where
  lifecycle : Option String
  dependencies : Option (List String)

/-- The three lifecycle strings of `DependencyContainer.LIFECYCLE`
(lines 33-39). -/
def SINGLETON : String := "singleton"

def TRANSIENT : String := "transient"

def SCOPED : String := "scoped"

/-- A JavaScript `Map` as an insertion-ordered association list. -/
abbrev JsMap (α : Type) := List (String × α)

/-- `Map.prototype.get`: first (and, for maps built by `set`, only) binding. -/
def JsMap.get {α : Type} : JsMap α → String → Option α
  | [], _ => none
  | (k, v) :: rest, key => if k = key then some v else JsMap.get rest key

/-- `Map.prototype.set`: update in place, or append a new key at the end. -/
def JsMap.set {α : Type} : JsMap α → String → α → JsMap α
  | [], key, val => [(key, val)]
  | (k, v) :: rest, key, val =>
    if k = key then (k, val) :: rest else (k, v) :: JsMap.set rest key val

/-- `Map.prototype.delete` (the return value is taken from `has` instead). -/
def JsMap.del {α : Type} : JsMap α → String → JsMap α
  | [], _ => []
  | (k, v) :: rest, key =>
    if k = key then rest else (k, v) :: JsMap.del rest key

/-- `Map.prototype.has`. -/
def JsMap.hasKey {α : Type} (m : JsMap α) (key : String) : Bool :=
  (JsMap.get m key).isSome

/-- `Array.from(map.keys())`. -/
def JsMap.keys {α : Type} (m : JsMap α) : List String :=
  m.map Prod.fst

/-- The entry-by-entry copy loop of `createChild` (lines 175-183):
`for (const [name, v] of src) dst.set(name, v)` starting from an empty map. -/
def JsMap.copy {α : Type} (m : JsMap α) : JsMap α :=
  m.foldl (fun acc e => JsMap.set acc e.1 e.2) []

/-- The container state: the three maps of the constructor (lines 19-26),
the lazily created `_circularDependencyCheck` set (`none` = still
`undefined`), the heap's fresh-id supply, and the ghost invocation log. -/
structure Container where
  services : JsMap ServiceConfig
  singletons : JsMap Value
  configurations : JsMap ServiceConfig
  circularDependencyCheck : Option (List String)
  nextId : Nat
  invoked : List String

/-- `new DependencyContainer()`. -/
def emptyContainer : Container :=
  { services := [], singletons := [], configurations := [],
    circularDependencyCheck := none, nextId := 0, invoked := [] }

/-- The test `this._circularDependencyCheck && this._circularDependencyCheck.has(name)`
of line 206: `undefined` is falsy, so an uncreated set contains nothing. -/
def stackContains (c : Container) (name : String) : Bool :=
  match c.circularDependencyCheck with
  | some s => s.contains name
  | none => false

/-- `Set.prototype.add`: insertion order, no duplicates. -/
def JsSet.add (s : List String) (x : String) : List String :=
  if s.contains x then s else s ++ [x]

/-- `register(name, factory, options)` (lines 50-62).  The config literal
defaults `lifecycle` with `options.lifecycle || SINGLETON` and
`dependencies` with `options.dependencies || []`, but the trailing
`...options` spread puts any explicitly present property back, so the net
lifecycle is `options.lifecycle` whenever the property is present (even a
falsy string) and `"singleton"` otherwise; an array (even empty) is truthy,
so the net dependencies are `options.dependencies` whenever present. -/
def register (c : Container) (name : String) (factory : Factory)
    (options : RegisterOptions) : Container :=
  let config : ServiceConfig :=
    { factory := factory
      lifecycle := options.lifecycle.getD SINGLETON
      dependencies := options.dependencies.getD [] }
  { c with
    services := JsMap.set c.services name config
    configurations := JsMap.set c.configurations name config }

/-- `registerSingleton` (lines 71-76). -/
def registerSingleton (c : Container) (name : String) (factory : Factory)
    (dependencies : List String) : Container :=
  register c name factory ⟨some SINGLETON, some dependencies⟩

/-- `registerTransient` (lines 85-90). -/
def registerTransient (c : Container) (name : String) (factory : Factory)
    (dependencies : List String) : Container :=
  register c name factory ⟨some TRANSIENT, some dependencies⟩

/-- `registerValue` (lines 98-103): pre-populates the singleton cache, then
registers a factory closure returning the fixed value. -/
def registerValue (c : Container) (name : String) (v : Value) : Container :=
  let c1 := { c with singletons := JsMap.set c.singletons name v }
  register c1 name (Factory.fn (fun n _ => Except.ok (v, n)))
    ⟨some SINGLETON, none⟩

/-- `isRegistered` (lines 135-137). -/
def isRegistered (c : Container) (name : String) : Bool :=
  JsMap.hasKey c.services name

/-- `getRegisteredServices` (lines 143-145). -/
def getRegisteredServices (c : Container) : List String :=
  JsMap.keys c.services

/-- `unregister` (lines 152-156): deletes from all three maps, returns
whether a service descriptor existed. -/
def unregister (c : Container) (name : String) : Bool × Container :=
  (JsMap.hasKey c.services name,
   { c with
     services := JsMap.del c.services name
     singletons := JsMap.del c.singletons name
     configurations := JsMap.del c.configurations name })

/-- `clear` (lines 161-165): empties the three maps; the
`_circularDependencyCheck` set is not touched. -/
def clear (c : Container) : Container :=
  { c with services := [], singletons := [], configurations := [] }

/-- `createChild` (lines 171-186): a fresh container whose `services` and
`configurations` are filled entry-by-entry from the parent's `services`,
and whose `singletons` are copied from the parent's `singletons`.  The
child shares the heap, hence inherits the fresh-id supply. -/
def createChild (c : Container) : Container :=
  { services := JsMap.copy c.services
    singletons := JsMap.copy c.singletons
    configurations := JsMap.copy c.services
    circularDependencyCheck := none
    nextId := c.nextId
    invoked := [] }

/-- `getConfiguration` (lines 193-195). -/
def getConfiguration (c : Container) (name : String) : Option ServiceConfig :=
  JsMap.get c.configurations name

/-- The dependency-mapping loop `dependencies.map(dep => this.resolve(dep))`
of line 256, abstracted over the recursive resolver (which carries the
fuel).  An exception from any element aborts the whole map. -/
def mapResolve (rec_ : Container → String → Option (Except JsError Value × Container)) :
    Container → List String → Option (Except JsError (List Value) × Container)
  | c, [] => some (Except.ok [], c)
  | c, d :: ds =>
    match rec_ c d with
    | none => none
    | some (Except.error e, c1) => some (Except.error e, c1)
    | some (Except.ok v, c1) =>
      match mapResolve rec_ c1 ds with
      | none => none
      | some (Except.error e, c2) => some (Except.error e, c2)
      | some (Except.ok vs, c2) => some (Except.ok (v :: vs), c2)

/-- Lines 249-253: lazily create the cycle set and `add(currentService)`. -/
def pushStack (c : Container) (currentService : String) : Container :=
  { c with
    circularDependencyCheck :=
      some (JsSet.add (c.circularDependencyCheck.getD []) currentService) }

/-- Line 259, the `finally` clause: `delete(currentService)` from the set. -/
def popStack (c : Container) (currentService : String) : Container :=
  { c with
    circularDependencyCheck :=
      some ((c.circularDependencyCheck.getD []).filter
        (fun x => x ≠ currentService)) }

/-- `_resolveDependencies(dependencies, currentService)` (lines 243-261):
empty dependency lists return immediately; otherwise the (lazily created)
cycle set gains `currentService`, the dependencies are resolved left to
right, and the `finally` clause removes `currentService` again on both the
normal and the exceptional exit. -/
def resolveDependencies
    (rec_ : Container → String → Option (Except JsError Value × Container))
    (c : Container) (dependencies : List String) (currentService : String) :
    Option (Except JsError (List Value) × Container) :=
  if dependencies.isEmpty then some (Except.ok [], c)
  else
    match mapResolve rec_ (pushStack c currentService) dependencies with
    | none => none
    | some (res, c2) => some (res, popStack c2 currentService)

/-- The factory-invocation step of `_createInstance` (lines 220-226):
a function factory is called with the resolved dependencies (and, in this
embedding, the heap's fresh-id supply); a non-function `factory` is used as
the instance itself.  The invocation of a function factory is recorded in
the ghost log whether it returns or throws. -/
def invokeFactory (c1 : Container) (name : String) (config : ServiceConfig)
    (deps : List Value) : Except JsError Value × Container :=
  match config.factory with
  | Factory.fn f =>
    let c2 := { c1 with invoked := c1.invoked ++ [name] }
    match f c1.nextId deps with
    | Except.error e => (Except.error e, c2)
    | Except.ok (v, n2) => (Except.ok v, { c2 with nextId := n2 })
  | Factory.value v => (Except.ok v, c1)

/-- The singleton-store step of `_createInstance` (lines 228-231). -/
def storeSingleton (c : Container) (name : String) (config : ServiceConfig)
    (v : Value) : Container :=
  if config.lifecycle = SINGLETON then
    { c with singletons := JsMap.set c.singletons name v }
  else c

/-- `_createInstance(name, config)` (lines 204-234), abstracted over the
recursive resolver: circular check, singleton cache check, dependency
resolution, factory invocation, singleton store. -/
def createInstance
    (rec_ : Container → String → Option (Except JsError Value × Container))
    (c : Container) (name : String) (config : ServiceConfig) :
    Option (Except JsError Value × Container) :=
  if stackContains c name then
    some (Except.error (JsError.circularDependency name), c)
  else if config.lifecycle = SINGLETON ∧ (JsMap.get c.singletons name).isSome then
    match JsMap.get c.singletons name with
    | some v => some (Except.ok v, c)
    | none => none
  else
    match resolveDependencies rec_ c config.dependencies name with
    | none => none
    | some (Except.error e, c1) => some (Except.error e, c1)
    | some (Except.ok deps, c1) =>
      match invokeFactory c1 name config deps with
      | (Except.error e, c2) => some (Except.error e, c2)
      | (Except.ok v, c2) => some (Except.ok v, storeSingleton c2 name config v)

/-- `resolve(name)` (lines 111-119) with a fuel bound on the recursion
depth: look the descriptor up, fail with `serviceNotFound` when absent,
otherwise run `_createInstance` where nested `resolve` calls use one unit
less fuel. -/
def resolve : Nat → Container → String → Option (Except JsError Value × Container)
  | 0, _, _ => none
  | fuel + 1, c, name =>
    match JsMap.get c.services name with
    | none => some (Except.error (JsError.serviceNotFound name), c)
    | some config => createInstance (resolve fuel) c name config

/-- `dispose()` (lines 266-278): walk the singleton entries in insertion
order, call `dispose` on every instance exposing one (exceptions are caught
and logged), then `clear()`.  Returns the list of entries whose `dispose`
method was invoked, in invocation order. -/
def disposeLog : JsMap Value → List (String × Value)
  | [] => []
  | (name, v) :: rest =>
    match v.disposeMethod with
    | some _ => (name, v) :: disposeLog rest
    | none => disposeLog rest

/-- `dispose()` as a state transformer paired with its ghost invocation
log. -/
def dispose (c : Container) : List (String × Value) × Container :=
  (disposeLog c.singletons, clear c)

/-- A factory that constructs a fresh object (for example `() => ({})`):
it consumes one heap id and never throws. -/
def freshFactory : Factory :=
  Factory.fn (fun n _ => Except.ok (⟨n, none⟩, n + 1))

/-- A factory that throws (`() => { throw new Error(msg) }`). -/
def throwFactory (msg : String) : Factory :=
  Factory.fn (fun _ _ => Except.error (JsError.userError msg))

/-- The result component of a `resolve` outcome, without the container
state (the state holds factory closures, so it has no decidable
equality). -/
def outcome (r : Option (Except JsError Value × Container)) :
    Option (Except JsError Value) :=
  r.map Prod.fst

/-! ### Basic lemmas about the map and set embeddings -/

theorem JsMap.get_set {α : Type} (m : JsMap α) (k : String) (v : α) (n : String) :
    JsMap.get (JsMap.set m k v) n = if n = k then some v else JsMap.get m n := by
  induction m with
  | nil =>
    rcases eq_or_ne n k with rfl | h
    · simp [JsMap.set, JsMap.get]
    · simp [JsMap.set, JsMap.get, h, Ne.symm h]
  | cons e rest ih =>
    obtain ⟨a, w⟩ := e
    rcases eq_or_ne a k with rfl | hak
    · rcases eq_or_ne n a with rfl | hna
      · simp [JsMap.set, JsMap.get]
      · simp [JsMap.set, JsMap.get, hna, Ne.symm hna]
    · rcases eq_or_ne a n with rfl | hna
      · simp [JsMap.set, JsMap.get, hak, Ne.symm hak]
      · simp [JsMap.set, JsMap.get, hak, hna, Ne.symm hna, ih]

theorem JsMap.get_del_isSome {α : Type} (m : JsMap α) (k n : String)
    (h : (JsMap.get (JsMap.del m k) n).isSome) : (JsMap.get m n).isSome := by
  induction m with
  | nil => simp [JsMap.del, JsMap.get] at h
  | cons e rest ih =>
    obtain ⟨a, w⟩ := e
    by_cases hak : a = k
    · subst hak
      simp only [JsMap.del, if_pos rfl] at h
      by_cases hna : a = n
      · subst hna; simp [JsMap.get]
      · simpa [JsMap.get, hna] using h
    · by_cases hna : a = n
      · subst hna; simp [JsMap.get]
      · simp only [JsMap.del, if_neg hak] at h
        simp only [JsMap.get, if_neg hna] at h ⊢
        exact ih h

theorem JsMap.get_isSome_mem_keys {α : Type} (m : JsMap α) (n : String)
    (h : (JsMap.get m n).isSome) : n ∈ JsMap.keys m := by
  induction m with
  | nil => simp [JsMap.get] at h
  | cons e rest ih =>
    obtain ⟨a, w⟩ := e
    by_cases hna : a = n
    · subst hna; simp [JsMap.keys]
    · simp only [JsMap.get, if_neg hna] at h
      simp [JsMap.keys] at ih ⊢
      exact Or.inr (ih h)

theorem contains_eq_decide_mem (l : List String) (x : String) :
    l.contains x = decide (x ∈ l) := by
  by_cases h : x ∈ l
  · rw [decide_eq_true h]
    exact List.elem_iff.mpr h
  · rw [decide_eq_false h]
    cases hc : l.contains x
    · rfl
    · exact absurd (List.elem_iff.mp hc) h

theorem contains_filter_ne (l : List String) (current x : String) :
    (l.filter (fun y => y ≠ current)).contains x =
      if x = current then false else l.contains x := by
  rw [contains_eq_decide_mem, contains_eq_decide_mem]
  rcases eq_or_ne x current with rfl | h
  · simp [List.mem_filter]
  · simp [List.mem_filter, h]

theorem JsSet.contains_add (s : List String) (y x : String) :
    (JsSet.add s y).contains x = (s.contains x || x == y) := by
  unfold JsSet.add
  by_cases hmem : s.contains y
  · rw [if_pos hmem]
    rcases eq_or_ne x y with rfl | hxy
    · rw [beq_self_eq_true, Bool.or_true, hmem]
    · rw [beq_eq_false_iff_ne.mpr hxy, Bool.or_false]
  · rw [if_neg hmem]
    rw [contains_eq_decide_mem, contains_eq_decide_mem]
    rcases eq_or_ne x y with rfl | hxy
    · simp
    · simp [hxy]

theorem JsMap.mem_keys_iff {α : Type} (m : JsMap α) (n : String) :
    n ∈ JsMap.keys m ↔ (JsMap.get m n).isSome := by
  induction m with
  | nil => simp [JsMap.keys, JsMap.get]
  | cons e rest ih =>
    obtain ⟨a, w⟩ := e
    by_cases hna : a = n
    · subst hna
      simp [JsMap.keys, JsMap.get]
    · simp [JsMap.keys, JsMap.get, hna, Ne.symm hna] at ih ⊢
      exact ih

theorem JsMap.keys_set {α : Type} (m : JsMap α) (k : String) (v : α) :
    JsMap.keys (JsMap.set m k v) =
      if (JsMap.get m k).isSome then JsMap.keys m else JsMap.keys m ++ [k] := by
  induction m with
  | nil => simp [JsMap.set, JsMap.keys, JsMap.get]
  | cons e rest ih =>
    obtain ⟨a, w⟩ := e
    by_cases hak : a = k
    · subst hak
      simp [JsMap.set, JsMap.keys, JsMap.get]
    · simp only [JsMap.set, if_neg hak, JsMap.keys, List.map_cons, JsMap.get,
        if_neg hak] at ih ⊢
      rw [ih]
      split <;> rfl

theorem JsMap.keys_set_nodup {α : Type} (m : JsMap α) (k : String) (v : α)
    (h : (JsMap.keys m).Nodup) : (JsMap.keys (JsMap.set m k v)).Nodup := by
  rw [JsMap.keys_set]
  split
  · exact h
  · next hns =>
    rw [List.nodup_append]
    refine ⟨h, List.nodup_singleton k, ?_⟩
    intro x hx hk
    rw [List.mem_singleton] at hk
    subst hk
    exact hns (JsMap.mem_keys_iff m x |>.mp hx)

theorem JsMap.keys_del_sublist {α : Type} (m : JsMap α) (k : String) :
    List.Sublist (JsMap.keys (JsMap.del m k)) (JsMap.keys m) := by
  induction m with
  | nil => simp [JsMap.del, JsMap.keys]
  | cons e rest ih =>
    obtain ⟨a, w⟩ := e
    by_cases hak : a = k
    · subst hak
      simp only [JsMap.del, if_pos rfl]
      exact List.sublist_cons_self _ _
    · simp only [JsMap.del, if_neg hak, JsMap.keys, List.map_cons]
      exact List.Sublist.cons₂ _ ih

theorem JsMap.get_del_self {α : Type} (m : JsMap α) (k : String)
    (h : (JsMap.keys m).Nodup) : JsMap.get (JsMap.del m k) k = none := by
  induction m with
  | nil => rfl
  | cons e rest ih =>
    obtain ⟨a, w⟩ := e
    simp only [JsMap.keys, List.map_cons, List.nodup_cons] at h
    by_cases hak : a = k
    · subst hak
      have hdel : JsMap.del ((a, w) :: rest) a = rest := by simp [JsMap.del]
      rw [hdel]
      cases hg : JsMap.get rest a with
      | none => rfl
      | some w2 =>
        exact absurd ((JsMap.mem_keys_iff rest a).mpr (by rw [hg]; rfl)) h.1
    · have hdel : JsMap.del ((a, w) :: rest) k = (a, w) :: JsMap.del rest k := by
        simp [JsMap.del, hak]
      rw [hdel]
      simp only [JsMap.get, if_neg hak]
      exact ih h.2

theorem JsMap.get_del_ne {α : Type} (m : JsMap α) (k n : String) (h : n ≠ k) :
    JsMap.get (JsMap.del m k) n = JsMap.get m n := by
  induction m with
  | nil => rfl
  | cons e rest ih =>
    obtain ⟨a, w⟩ := e
    by_cases hak : a = k
    · subst hak
      have hdel : JsMap.del ((a, w) :: rest) a = rest := by simp [JsMap.del]
      rw [hdel]
      have hna : a ≠ n := fun he => h he.symm
      simp [JsMap.get, hna]
    · have hdel : JsMap.del ((a, w) :: rest) k = (a, w) :: JsMap.del rest k := by
        simp [JsMap.del, hak]
      rw [hdel]
      by_cases hna : a = n
      · subst hna
        simp [JsMap.get]
      · simp [JsMap.get, hna, ih]

theorem JsMap.get_append {α : Type} (m1 m2 : JsMap α) (k : String) :
    JsMap.get (m1 ++ m2) k =
      match JsMap.get m1 k with
      | some v => some v
      | none => JsMap.get m2 k := by
  induction m1 with
  | nil => rfl
  | cons e rest ih =>
    obtain ⟨a, w⟩ := e
    by_cases hak : a = k <;> simp [JsMap.get, hak, ih]

/-! ### The frame invariant of `resolve`

A completed (even exceptionally completed) `resolve` call never changes the
`services` or `configurations` maps, never changes the membership of the
cycle-detection set (`_resolveDependencies` removes in its `finally` clause
exactly what it added), never discards a created set, and only ever caches
singleton instances under registered names. -/

def Evolves (c c' : Container) : Prop :=
  c'.services = c.services ∧
  c'.configurations = c.configurations ∧
  (∀ x, stackContains c' x = stackContains c x) ∧
  (∀ m, (JsMap.get c'.singletons m).isSome →
    (JsMap.get c.singletons m).isSome ∨ (JsMap.get c.services m).isSome) ∧
  (c.circularDependencyCheck.isSome → c'.circularDependencyCheck.isSome) ∧
  ((JsMap.keys c.singletons).Nodup → (JsMap.keys c'.singletons).Nodup)

theorem Evolves.refl (c : Container) : Evolves c c :=
  ⟨rfl, rfl, fun _ => rfl, fun _ h => Or.inl h, id, id⟩

theorem Evolves.trans {a b c : Container} (h1 : Evolves a b) (h2 : Evolves b c) :
    Evolves a c := by
  obtain ⟨s1, c1, st1, g1, o1, n1⟩ := h1
  obtain ⟨s2, c2, st2, g2, o2, n2⟩ := h2
  refine ⟨s2.trans s1, c2.trans c1, fun x => (st2 x).trans (st1 x), ?_,
    fun h => o2 (o1 h), fun h => n2 (n1 h)⟩
  intro m hm
  rcases g2 m hm with h | h
  · exact g1 m h
  · rw [s1] at h; exact Or.inr h

/-- Changing only the ghost log and the heap supply is an `Evolves` step. -/
theorem Evolves.ghost {c c' : Container}
    (hs : c'.services = c.services)
    (hc : c'.configurations = c.configurations)
    (hst : c'.circularDependencyCheck = c.circularDependencyCheck)
    (hg : c'.singletons = c.singletons) : Evolves c c' := by
  refine ⟨hs, hc, fun x => ?_, fun m hm => ?_, fun h => ?_, fun h => ?_⟩
  · simp [stackContains, hst]
  · rw [hg] at hm; exact Or.inl hm
  · rwa [hst]
  · rwa [hg]

theorem mapResolve_evolves
    (rec_ : Container → String → Option (Except JsError Value × Container))
    (hrec : ∀ c n r c', rec_ c n = some (r, c') → Evolves c c') :
    ∀ (deps : List String) (c : Container) (r : Except JsError (List Value))
      (c' : Container), mapResolve rec_ c deps = some (r, c') → Evolves c c' := by
  intro deps
  induction deps with
  | nil =>
    intro c r c' h
    simp only [mapResolve] at h
    cases h
    exact Evolves.refl c
  | cons d ds ih =>
    intro c r c' h
    simp only [mapResolve] at h
    cases h1 : rec_ c d with
    | none => rw [h1] at h; cases h
    | some p =>
      obtain ⟨r1, c1⟩ := p
      rw [h1] at h
      cases r1 with
      | error e =>
        simp only at h
        cases h
        exact hrec c d (Except.error e) c' h1
      | ok v =>
        simp only at h
        have he1 : Evolves c c1 := hrec c d (Except.ok v) c1 h1
        cases h2 : mapResolve rec_ c1 ds with
        | none => rw [h2] at h; cases h
        | some p2 =>
          obtain ⟨r2, c2⟩ := p2
          rw [h2] at h
          cases r2 with
          | error e =>
            simp only at h
            cases h
            exact he1.trans (ih c1 (Except.error e) c' h2)
          | ok vs =>
            simp only at h
            cases h
            exact he1.trans (ih c1 (Except.ok vs) c' h2)

/-- `stackContains` through the lazy-initialisation default. -/
theorem stackContains_eq (c : Container) (x : String) :
    stackContains c x = (c.circularDependencyCheck.getD []).contains x := by
  cases h : c.circularDependencyCheck <;> simp [stackContains, h]

theorem stackContains_pushStack (c : Container) (cur x : String) :
    stackContains (pushStack c cur) x = (stackContains c x || x == cur) := by
  simp only [pushStack, stackContains]
  rw [JsSet.contains_add, ← stackContains_eq]
  rfl

theorem stackContains_popStack (c : Container) (cur x : String) :
    stackContains (popStack c cur) x = if x = cur then false else stackContains c x := by
  simp only [popStack, stackContains]
  rw [contains_filter_ne, ← stackContains_eq]
  rfl

/-- The singleton store step of `_createInstance` (line 230) is an
`Evolves` step as long as the stored name is registered. -/
theorem Evolves.store {c1 c' : Container} (name : String) (v : Value)
    (hs : c'.services = c1.services) (hc : c'.configurations = c1.configurations)
    (hst : c'.circularDependencyCheck = c1.circularDependencyCheck)
    (hg : c'.singletons = JsMap.set c1.singletons name v)
    (hname : (JsMap.get c1.services name).isSome) : Evolves c1 c' := by
  refine ⟨hs, hc, fun x => by simp [stackContains, hst], ?_, fun h => by rwa [hst],
    fun h => by rw [hg]; exact JsMap.keys_set_nodup c1.singletons name v h⟩
  intro m hm
  rw [hg, JsMap.get_set] at hm
  by_cases hmn : m = name
  · right
    rw [hmn]
    exact hname
  · rw [if_neg hmn] at hm
    exact Or.inl hm

theorem resolveDependencies_evolves
    (rec_ : Container → String → Option (Except JsError Value × Container))
    (hrec : ∀ c n r c', rec_ c n = some (r, c') → Evolves c c')
    (c : Container) (deps : List String) (current : String)
    (r : Except JsError (List Value)) (c' : Container)
    (hstack : stackContains c current = false)
    (h : resolveDependencies rec_ c deps current = some (r, c')) : Evolves c c' := by
  unfold resolveDependencies at h
  by_cases hdeps : deps.isEmpty
  · rw [if_pos hdeps] at h
    cases h
    exact Evolves.refl c
  · rw [if_neg hdeps] at h
    cases hm : mapResolve rec_ (pushStack c current) deps with
    | none => rw [hm] at h; cases h
    | some p =>
      obtain ⟨res, c2⟩ := p
      rw [hm] at h
      simp only at h
      cases h
      have he12 : Evolves (pushStack c current) c2 :=
        mapResolve_evolves rec_ hrec deps _ _ _ hm
      obtain ⟨hs12, hc12, hst12, hg12, ho12, hnd12⟩ := he12
      refine ⟨hs12, hc12, fun x => ?_, fun m hm2 => hg12 m hm2,
        fun _ => by simp [popStack], fun hn => hnd12 hn⟩
      rw [stackContains_popStack, hst12 x, stackContains_pushStack]
      rcases eq_or_ne x current with rfl | hxc
      · rw [if_pos rfl, hstack]
      · rw [if_neg hxc, beq_eq_false_iff_ne.mpr hxc, Bool.or_false]

theorem invokeFactory_evolves (c1 : Container) (name : String)
    (config : ServiceConfig) (deps : List Value) (r : Except JsError Value)
    (c2 : Container) (h : invokeFactory c1 name config deps = (r, c2)) :
    Evolves c1 c2 := by
  unfold invokeFactory at h
  split at h
  · split at h
    · cases h
      exact Evolves.ghost rfl rfl rfl rfl
    · cases h
      exact Evolves.ghost rfl rfl rfl rfl
  · cases h
    exact Evolves.refl c1

theorem storeSingleton_evolves (c2 : Container) (name : String)
    (config : ServiceConfig) (v : Value)
    (hname : (JsMap.get c2.services name).isSome) :
    Evolves c2 (storeSingleton c2 name config v) := by
  unfold storeSingleton
  split
  · exact Evolves.store name v rfl rfl rfl rfl hname
  · exact Evolves.refl c2

theorem createInstance_evolves
    (rec_ : Container → String → Option (Except JsError Value × Container))
    (hrec : ∀ c n r c', rec_ c n = some (r, c') → Evolves c c')
    (c : Container) (name : String) (config : ServiceConfig)
    (r : Except JsError Value) (c' : Container)
    (hreg : (JsMap.get c.services name).isSome)
    (h : createInstance rec_ c name config = some (r, c')) : Evolves c c' := by
  unfold createInstance at h
  split at h
  · cases h
    exact Evolves.refl c
  · next hst =>
    have hstf : stackContains c name = false := by
      cases hb : stackContains c name
      · rfl
      · exact absurd hb hst
    split at h
    · split at h
      · cases h
        exact Evolves.refl c
      · cases h
    · split at h
      · cases h
      · next e c1 heq =>
        cases h
        exact resolveDependencies_evolves rec_ hrec c config.dependencies name
          (Except.error e) c' hstf heq
      · next deps c1 heq =>
        have he1 : Evolves c c1 :=
          resolveDependencies_evolves rec_ hrec c config.dependencies name
            (Except.ok deps) c1 hstf heq
        have hreg1 : (JsMap.get c1.services name).isSome := by
          rw [he1.1]
          exact hreg
        split at h
        · next e c2 hinv =>
          cases h
          exact he1.trans (invokeFactory_evolves c1 name config deps _ _ hinv)
        · next v c2 hinv =>
          cases h
          have he2 : Evolves c1 c2 := invokeFactory_evolves c1 name config deps _ _ hinv
          have hreg2 : (JsMap.get c2.services name).isSome := by
            rw [he2.1]
            exact hreg1
          exact (he1.trans he2).trans (storeSingleton_evolves c2 name config v hreg2)

/-- A completed `resolve` call, whether it returns or throws, preserves the
service and configuration registry, the membership of the cycle-detection
set, and only caches instances under registered names. -/
theorem resolve_evolves : ∀ (fuel : Nat) (c : Container) (name : String)
    (r : Except JsError Value) (c' : Container),
    resolve fuel c name = some (r, c') → Evolves c c' := by
  intro fuel
  induction fuel with
  | zero =>
    intro c name r c' h
    simp [resolve] at h
  | succ f ih =>
    intro c name r c' h
    simp only [resolve] at h
    split at h
    · cases h
      exact Evolves.refl c
    · next config heq =>
      exact createInstance_evolves (resolve f) ih c name config r c'
        (by rw [heq]; rfl) h

/-! ### Resolution equations -/

/-- Lines 112-116: an unregistered name throws `serviceNotFound` and
leaves the container untouched. -/
theorem resolve_notRegistered (fuel : Nat) (c : Container) (name : String)
    (h : JsMap.get c.services name = none) :
    resolve (fuel + 1) c name =
      some (Except.error (JsError.serviceNotFound name), c) := by
  simp [resolve, h]

theorem resolve_registered (fuel : Nat) (c : Container) (name : String)
    (config : ServiceConfig) (h : JsMap.get c.services name = some config) :
    resolve (fuel + 1) c name = createInstance (resolve fuel) c name config := by
  simp [resolve, h]

/-- Lines 205-208: a name already on the resolution stack throws
`circularDependency` immediately and leaves the container untouched. -/
theorem createInstance_circular
    (rec_ : Container → String → Option (Except JsError Value × Container))
    (c : Container) (name : String) (config : ServiceConfig)
    (hst : stackContains c name = true) :
    createInstance rec_ c name config =
      some (Except.error (JsError.circularDependency name), c) := by
  simp [createInstance, hst]

/-- Lines 210-215: a cached singleton whose name is not on the resolution
stack is returned as-is, with no state change at all. -/
theorem createInstance_cacheHit
    (rec_ : Container → String → Option (Except JsError Value × Container))
    (c : Container) (name : String) (config : ServiceConfig) (v : Value)
    (hst : stackContains c name = false)
    (hlc : config.lifecycle = SINGLETON)
    (hv : JsMap.get c.singletons name = some v) :
    createInstance rec_ c name config = some (Except.ok v, c) := by
  simp [createInstance, hst, hlc, hv]

theorem resolve_circular (fuel : Nat) (c : Container) (name : String)
    (config : ServiceConfig) (hreg : JsMap.get c.services name = some config)
    (hst : stackContains c name = true) :
    resolve (fuel + 1) c name =
      some (Except.error (JsError.circularDependency name), c) := by
  rw [resolve_registered fuel c name config hreg,
    createInstance_circular (resolve fuel) c name config hst]

theorem resolve_cacheHit (fuel : Nat) (c : Container) (name : String)
    (config : ServiceConfig) (v : Value)
    (hreg : JsMap.get c.services name = some config)
    (hst : stackContains c name = false)
    (hlc : config.lifecycle = SINGLETON)
    (hv : JsMap.get c.singletons name = some v) :
    resolve (fuel + 1) c name = some (Except.ok v, c) := by
  rw [resolve_registered fuel c name config hreg,
    createInstance_cacheHit (resolve fuel) c name config v hst hlc hv]

/-! ### Termination: the recursion depth is bounded by the number of
registered services that are not yet on the resolution stack. -/

def unresolvedCount (c : Container) : Nat :=
  ((JsMap.keys c.services).filter (fun k => !(stackContains c k))).length

theorem length_filter_le_of_imp {α : Type} (l : List α) (p q : α → Bool)
    (himp : ∀ y, q y = true → p y = true) :
    (l.filter q).length ≤ (l.filter p).length := by
  induction l with
  | nil => simp
  | cons a rest ih =>
    rw [List.filter_cons, List.filter_cons]
    cases hqa : q a
    · cases hpa : p a
      · simpa using ih
      · simp only [if_true, List.length_cons]
        exact Nat.le_trans ih (Nat.le_succ _)
    · rw [himp a hqa]
      simpa using ih

theorem length_filter_lt {α : Type} (l : List α) (p q : α → Bool) (x : α)
    (hx : x ∈ l) (hpx : p x = true) (hqx : q x = false)
    (himp : ∀ y, q y = true → p y = true) :
    (l.filter q).length < (l.filter p).length := by
  induction l with
  | nil => cases hx
  | cons a rest ih =>
    rw [List.filter_cons, List.filter_cons]
    rcases List.mem_cons.mp hx with rfl | hmem
    · rw [hpx, hqx]
      simp only [if_true, if_false, List.length_cons]
      exact Nat.lt_succ_of_le (length_filter_le_of_imp rest p q himp)
    · cases hqa : q a
      · cases hpa : p a
        · simpa using ih hmem
        · simp only [if_true, if_false, List.length_cons]
          exact Nat.lt_succ_of_lt (ih hmem)
      · rw [himp a hqa]
        simpa using ih hmem

theorem unresolvedCount_of_evolves {c c' : Container} (h : Evolves c c') :
    unresolvedCount c' = unresolvedCount c := by
  unfold unresolvedCount
  rw [h.1]
  apply congrArg
  apply List.filter_congr
  intro k _
  rw [h.2.2.1 k]

theorem unresolvedCount_pos (c : Container) (name : String)
    (hreg : (JsMap.get c.services name).isSome)
    (hst : stackContains c name = false) :
    0 < unresolvedCount c := by
  have hmem : name ∈ (JsMap.keys c.services).filter (fun k => !(stackContains c k)) := by
    rw [List.mem_filter]
    exact ⟨JsMap.get_isSome_mem_keys _ _ hreg, by rw [hst]; rfl⟩
  unfold unresolvedCount
  exact List.length_pos.mpr (fun hnil => by rw [hnil] at hmem; cases hmem)

theorem unresolvedCount_pushStack_lt (c : Container) (name : String)
    (hreg : (JsMap.get c.services name).isSome)
    (hst : stackContains c name = false) :
    unresolvedCount (pushStack c name) < unresolvedCount c := by
  unfold unresolvedCount
  have hkeys : JsMap.keys (pushStack c name).services = JsMap.keys c.services := rfl
  rw [hkeys]
  apply length_filter_lt (JsMap.keys c.services)
    (fun k => !(stackContains c k)) (fun k => !(stackContains (pushStack c name) k)) name
  · exact JsMap.get_isSome_mem_keys _ _ hreg
  · rw [hst]
    rfl
  · rw [stackContains_pushStack, hst]
    simp
  · intro y hq
    rw [stackContains_pushStack] at hq
    simp only [Bool.not_eq_eq_eq_not, Bool.not_true, Bool.or_eq_false_iff] at hq
    simp [hq.1]

theorem mapResolve_total
    (rec_ : Container → String → Option (Except JsError Value × Container))
    (hframe : ∀ c n r c', rec_ c n = some (r, c') → Evolves c c')
    (c0 : Container)
    (hsome : ∀ c1 n, Evolves c0 c1 → (rec_ c1 n).isSome) :
    ∀ (deps : List String) (c1 : Container), Evolves c0 c1 →
      (mapResolve rec_ c1 deps).isSome := by
  intro deps
  induction deps with
  | nil =>
    intro c1 _
    simp [mapResolve]
  | cons d ds ih =>
    intro c1 h1
    simp only [mapResolve]
    cases hr : rec_ c1 d with
    | none =>
      have := hsome c1 d h1
      rw [hr] at this
      cases this
    | some p =>
      obtain ⟨r1, c2⟩ := p
      cases r1 with
      | error e => simp
      | ok v =>
        have h2 : Evolves c0 c2 := h1.trans (hframe c1 d _ _ hr)
        have hm2 := ih c2 h2
        cases hmm : mapResolve rec_ c2 ds with
        | none =>
          rw [hmm] at hm2
          cases hm2
        | some p2 =>
          obtain ⟨r2, c3⟩ := p2
          cases r2 <;> simp [hmm]

/-- The factory step always yields a result (the factory either returns or
throws; both are results in this embedding). -/
theorem afterFactory_isSome (c1 : Container) (name : String)
    (config : ServiceConfig) (deps : List Value) :
    (match invokeFactory c1 name config deps with
      | (Except.error e, c2) => some (Except.error e, c2)
      | (Except.ok v, c2) =>
        some (Except.ok v, storeSingleton c2 name config v)).isSome := by
  rcases hinv : invokeFactory c1 name config deps with ⟨r2, c2⟩
  cases r2 <;> simp

/-- `resolve` completes (successfully or with an exception) whenever its
fuel exceeds the number of registered services not yet on the resolution
stack: the source's recursion depth is bounded and cannot diverge. -/
theorem resolve_total_aux : ∀ (k : Nat) (c : Container) (name : String) (fuel : Nat),
    unresolvedCount c ≤ k → k < fuel → (resolve fuel c name).isSome := by
  intro k
  induction k with
  | zero =>
    intro c name fuel hcount hfuel
    obtain ⟨f, rfl⟩ : ∃ f, fuel = f + 1 := ⟨fuel - 1, by omega⟩
    cases hreg : JsMap.get c.services name with
    | none => rw [resolve_notRegistered f c name hreg]; rfl
    | some config =>
      cases hst : stackContains c name with
      | false =>
        exfalso
        have := unresolvedCount_pos c name (by rw [hreg]; rfl) hst
        omega
      | true =>
        rw [resolve_circular f c name config hreg hst]
        rfl
  | succ k ih =>
    intro c name fuel hcount hfuel
    obtain ⟨f, rfl⟩ : ∃ f, fuel = f + 1 := ⟨fuel - 1, by omega⟩
    cases hreg : JsMap.get c.services name with
    | none => rw [resolve_notRegistered f c name hreg]; rfl
    | some config =>
      cases hst : stackContains c name with
      | true =>
        rw [resolve_circular f c name config hreg hst]
        rfl
      | false =>
        rw [resolve_registered f c name config hreg]
        by_cases hcache : config.lifecycle = SINGLETON ∧ (JsMap.get c.singletons name).isSome
        · obtain ⟨v, hv⟩ := Option.isSome_iff_exists.mp hcache.2
          rw [createInstance_cacheHit (resolve f) c name config v hst hcache.1 hv]
          rfl
        · unfold createInstance
          rw [if_neg (by rw [hst]; exact Bool.false_ne_true), if_neg hcache]
          have hsome : ∀ c1 n, Evolves (pushStack c name) c1 → (resolve f c1 n).isSome := by
            intro c1 n he
            apply ih c1 n f _ (by omega)
            have hlt : unresolvedCount (pushStack c name) < unresolvedCount c :=
              unresolvedCount_pushStack_lt c name (by rw [hreg]; rfl) hst
            rw [unresolvedCount_of_evolves he]
            omega
          cases hrd : resolveDependencies (resolve f) c config.dependencies name with
          | none =>
            exfalso
            unfold resolveDependencies at hrd
            by_cases hdeps : config.dependencies.isEmpty
            · rw [if_pos hdeps] at hrd
              cases hrd
            · rw [if_neg hdeps] at hrd
              have hms := mapResolve_total (resolve f) (resolve_evolves f)
                (pushStack c name) hsome config.dependencies (pushStack c name)
                (Evolves.refl _)
              cases hmm : mapResolve (resolve f) (pushStack c name) config.dependencies with
              | none =>
                rw [hmm] at hms
                cases hms
              | some p =>
                rw [hmm] at hrd
                cases hrd
          | some p =>
            obtain ⟨res, c1⟩ := p
            cases res with
            | error e => simp
            | ok deps => simpa using afterFactory_isSome c1 name config deps

/-- Termination in the form used by the claims: fuel
`unresolvedCount c + 1` always suffices. -/
theorem resolve_total (c : Container) (name : String) :
    (resolve (unresolvedCount c + 1) c name).isSome :=
  resolve_total_aux (unresolvedCount c) c name (unresolvedCount c + 1)
    (Nat.le_refl _) (Nat.lt_succ_self _)

/-- A successful `resolve` of a SINGLETON-lifecycle name always leaves the
instance in the singleton cache (lines 210-215 and 228-231). -/
theorem resolve_singleton_caches (fuel : Nat) (c : Container) (name : String)
    (config : ServiceConfig) (v : Value) (c' : Container)
    (hreg : JsMap.get c.services name = some config)
    (hlc : config.lifecycle = SINGLETON)
    (h : resolve fuel c name = some (Except.ok v, c')) :
    JsMap.get c'.singletons name = some v := by
  cases fuel with
  | zero => simp [resolve] at h
  | succ f =>
    rw [resolve_registered f c name config hreg] at h
    unfold createInstance at h
    split at h
    · simp at h
    · split at h
      · split at h
        · next w hw =>
          cases h
          exact hw
        · cases h
      · split at h
        · cases h
        · simp at h
        · next deps c1 heq =>
          split at h
          · simp at h
          · next w c2 hinv =>
            cases h
            unfold storeSingleton
            rw [if_pos hlc, JsMap.get_set]
            simp

/-- A registered name with no declared dependencies, a throwing function
factory, and no cache hit: the exception propagates unchanged and the only
state change is the ghost invocation log. -/
theorem resolve_noDeps_fn_error (fuel : Nat) (c : Container) (name : String)
    (config : ServiceConfig) (f : Nat → List Value → Except JsError (Value × Nat))
    (e : JsError)
    (hreg : JsMap.get c.services name = some config)
    (hst : stackContains c name = false)
    (hnc : ¬(config.lifecycle = SINGLETON ∧ (JsMap.get c.singletons name).isSome))
    (hdeps : config.dependencies = [])
    (hf : config.factory = Factory.fn f)
    (hres : f c.nextId [] = Except.error e) :
    resolve (fuel + 1) c name =
      some (Except.error e, { c with invoked := c.invoked ++ [name] }) := by
  rw [resolve_registered fuel c name config hreg]
  unfold createInstance
  rw [if_neg (by rw [hst]; exact Bool.false_ne_true), if_neg hnc]
  unfold resolveDependencies
  rw [hdeps]
  simp only [List.isEmpty_nil, if_true]
  unfold invokeFactory
  rw [hf]
  simp [hres]

/-- A registered name with no declared dependencies, a returning function
factory, and no cache hit: the factory's instance is returned, the heap
supply advances, the invocation is logged, and the instance is cached
exactly when the lifecycle is SINGLETON (`storeSingleton`). -/
theorem resolve_noDeps_fn_ok (fuel : Nat) (c : Container) (name : String)
    (config : ServiceConfig) (f : Nat → List Value → Except JsError (Value × Nat))
    (v : Value) (n2 : Nat)
    (hreg : JsMap.get c.services name = some config)
    (hst : stackContains c name = false)
    (hnc : ¬(config.lifecycle = SINGLETON ∧ (JsMap.get c.singletons name).isSome))
    (hdeps : config.dependencies = [])
    (hf : config.factory = Factory.fn f)
    (hres : f c.nextId [] = Except.ok (v, n2)) :
    resolve (fuel + 1) c name =
      some (Except.ok v,
        storeSingleton { c with invoked := c.invoked ++ [name], nextId := n2 }
          name config v) := by
  rw [resolve_registered fuel c name config hreg]
  unfold createInstance
  rw [if_neg (by rw [hst]; exact Bool.false_ne_true), if_neg hnc]
  unfold resolveDependencies
  rw [hdeps]
  simp only [List.isEmpty_nil, if_true]
  unfold invokeFactory
  rw [hf]
  simp [hres]

/-! ### Fuel stability: a completed resolution is unchanged by extra fuel,
so results at a concrete fuel are the results of the source's unbounded
recursion. -/

theorem mapResolve_mono
    (rec1 rec2 : Container → String → Option (Except JsError Value × Container))
    (hmono : ∀ c n r, rec1 c n = some r → rec2 c n = some r) :
    ∀ (deps : List String) (c : Container) (r : Except JsError (List Value) × Container),
      mapResolve rec1 c deps = some r → mapResolve rec2 c deps = some r := by
  intro deps
  induction deps with
  | nil =>
    intro c r h
    exact h
  | cons d ds ih =>
    intro c r h
    simp only [mapResolve] at h ⊢
    cases h1 : rec1 c d with
    | none => rw [h1] at h; cases h
    | some p =>
      rw [h1] at h
      rw [hmono c d p h1]
      obtain ⟨r1, c1⟩ := p
      cases r1 with
      | error e => exact h
      | ok v =>
        simp only at h ⊢
        cases h2 : mapResolve rec1 c1 ds with
        | none => rw [h2] at h; cases h
        | some p2 =>
          rw [h2] at h
          rw [ih c1 p2 h2]
          exact h

theorem resolveDependencies_mono
    (rec1 rec2 : Container → String → Option (Except JsError Value × Container))
    (hmono : ∀ c n r, rec1 c n = some r → rec2 c n = some r)
    (c : Container) (deps : List String) (cur : String)
    (r : Except JsError (List Value) × Container)
    (h : resolveDependencies rec1 c deps cur = some r) :
    resolveDependencies rec2 c deps cur = some r := by
  unfold resolveDependencies at h ⊢
  by_cases hdeps : deps.isEmpty
  · rw [if_pos hdeps] at h ⊢
    exact h
  · rw [if_neg hdeps] at h ⊢
    cases hm : mapResolve rec1 (pushStack c cur) deps with
    | none => rw [hm] at h; cases h
    | some p =>
      rw [hm] at h
      rw [mapResolve_mono rec1 rec2 hmono deps _ p hm]
      exact h

theorem createInstance_mono
    (rec1 rec2 : Container → String → Option (Except JsError Value × Container))
    (hmono : ∀ c n r, rec1 c n = some r → rec2 c n = some r)
    (c : Container) (name : String) (config : ServiceConfig)
    (r : Except JsError Value × Container)
    (h : createInstance rec1 c name config = some r) :
    createInstance rec2 c name config = some r := by
  unfold createInstance at h ⊢
  by_cases hst : stackContains c name
  · rw [if_pos hst] at h ⊢
    exact h
  · rw [if_neg hst] at h ⊢
    by_cases hcache : config.lifecycle = SINGLETON ∧ (JsMap.get c.singletons name).isSome
    · rw [if_pos hcache] at h ⊢
      exact h
    · rw [if_neg hcache] at h ⊢
      cases hrd : resolveDependencies rec1 c config.dependencies name with
      | none => rw [hrd] at h; cases h
      | some p =>
        rw [hrd] at h
        rw [resolveDependencies_mono rec1 rec2 hmono c config.dependencies name p hrd]
        exact h

theorem resolve_succ_mono : ∀ (fuel : Nat) (c : Container) (name : String)
    (r : Except JsError Value × Container),
    resolve fuel c name = some r → resolve (fuel + 1) c name = some r := by
  intro fuel
  induction fuel with
  | zero =>
    intro c name r h
    simp [resolve] at h
  | succ f ih =>
    intro c name r h
    cases hreg : JsMap.get c.services name with
    | none =>
      rw [resolve_notRegistered f c name hreg] at h
      rw [resolve_notRegistered (f + 1) c name hreg]
      exact h
    | some config =>
      rw [resolve_registered f c name config hreg] at h
      rw [resolve_registered (f + 1) c name config hreg]
      exact createInstance_mono (resolve f) (resolve (f + 1))
        (fun c n r hh => ih c n r hh) c name config r h

theorem resolve_stable (fuel fuel' : Nat) (c : Container) (name : String)
    (r : Except JsError Value × Container) (hle : fuel ≤ fuel')
    (h : resolve fuel c name = some r) : resolve fuel' c name = some r := by
  induction fuel' with
  | zero =>
    have : fuel = 0 := by omega
    subst this
    simp [resolve] at h
  | succ f ih =>
    rcases Nat.lt_or_ge fuel (f + 1) with hlt | hge
    · exact resolve_succ_mono f c name r (ih (by omega))
    · have : fuel = f + 1 := by omega
      subst this
      exact h

theorem outcome_stable (fuel fuel' : Nat) (c : Container) (name : String)
    (o : Except JsError Value) (hle : fuel ≤ fuel')
    (h : outcome (resolve fuel c name) = some o) :
    outcome (resolve fuel' c name) = some o := by
  cases hr : resolve fuel c name with
  | none => rw [hr] at h; cases h
  | some r =>
    rw [hr] at h
    rw [resolve_stable fuel fuel' c name r hle hr]
    exact h

/-! ### Containers used by the claims -/

/-- `register('a', f, { dependencies: ['a'] })` on a fresh container. -/
def selfCycleContainer (f : Factory) : Container :=
  register emptyContainer "a" f ⟨none, some ["a"]⟩

/-- The three-node cycle `a → b → c → a` on a fresh container. -/
def threeCycleContainer (fa fb fc : Factory) : Container :=
  register (register (register emptyContainer "a" fa ⟨none, some ["b"]⟩)
    "b" fb ⟨none, some ["c"]⟩) "c" fc ⟨none, some ["a"]⟩

/-! ### Claim C2 -/

/-- C2: a resolve call that reaches a name already being resolved in the
same call tree fails with `circularDependency` naming a cycle node and the
recursion is bounded.  Conjuncts: (1) resolving any registered name that is
on the live resolution stack fails immediately with `circularDependency`
naming it, with no state change; (2) the one-node self-cycle
`register('a', f, {dependencies: ['a']})` fails with
`circularDependency 'a'` for every factory and every fuel ≥ 2, so the
result is that of the source's unbounded recursion; (3) the three-node
cycle a→b→c→a fails with `circularDependency` naming the resolved (hence
cycle) node, for every factories and fuel ≥ 4; (4) resolution always
completes within fuel `unresolvedCount c + 1`: the recursion never runs
unboundedly. -/
theorem c2_circular_dependency :
    (∀ (fuel : Nat) (c : Container) (name : String) (config : ServiceConfig),
      JsMap.get c.services name = some config → stackContains c name = true →
      resolve (fuel + 1) c name =
        some (Except.error (JsError.circularDependency name), c)) ∧
    (∀ (f : Factory) (fuel : Nat), 2 ≤ fuel →
      outcome (resolve fuel (selfCycleContainer f) "a") =
        some (Except.error (JsError.circularDependency "a"))) ∧
    (∀ (fa fb fc : Factory) (fuel : Nat) (name : String), 4 ≤ fuel →
      name = "a" ∨ name = "b" ∨ name = "c" →
      outcome (resolve fuel (threeCycleContainer fa fb fc) name) =
        some (Except.error (JsError.circularDependency name))) ∧
    (∀ (c : Container) (name : String),
      (resolve (unresolvedCount c + 1) c name).isSome) := by
  refine ⟨resolve_circular, ?_, ?_, resolve_total⟩
  · intro f fuel hfuel
    exact outcome_stable 2 fuel _ "a" _ hfuel rfl
  · intro fa fb fc fuel name hfuel hname
    rcases hname with rfl | rfl | rfl
    · exact outcome_stable 4 fuel _ "a" _ hfuel rfl
    · exact outcome_stable 4 fuel _ "b" _ hfuel rfl
    · exact outcome_stable 4 fuel _ "c" _ hfuel rfl

/-- Witness for C2: the self-cycle resolved with fuel 7 fails with
`circularDependency 'a'`. -/
theorem c2_circular_dependency_witness :
    outcome (resolve 7 (selfCycleContainer freshFactory) "a") =
      some (Except.error (JsError.circularDependency "a")) :=
  c2_circular_dependency.2.1 freshFactory 7 (by decide)

/-! ### Claim C3 -/

/-- C3: resolving any name with no descriptor in the services map fails
with `serviceNotFound` (never a silent `undefined`/`null` return), and
after `clear()` or `dispose()` every name fails that way. -/
theorem c3_service_not_found :
    (∀ (fuel : Nat) (c : Container) (name : String),
      JsMap.get c.services name = none →
      resolve (fuel + 1) c name =
        some (Except.error (JsError.serviceNotFound name), c)) ∧
    (∀ (fuel : Nat) (c : Container) (name : String),
      resolve (fuel + 1) (clear c) name =
        some (Except.error (JsError.serviceNotFound name), clear c)) ∧
    (∀ (fuel : Nat) (c : Container) (name : String),
      resolve (fuel + 1) (dispose c).2 name =
        some (Except.error (JsError.serviceNotFound name), (dispose c).2)) := by
  refine ⟨resolve_notRegistered, fun fuel c name => ?_, fun fuel c name => ?_⟩
  · exact resolve_notRegistered fuel (clear c) name rfl
  · exact resolve_notRegistered fuel (dispose c).2 name rfl

/-- Witness for C3: resolving `'missing'` on a fresh container fails with
`serviceNotFound 'missing'`. -/
theorem c3_service_not_found_witness :
    resolve 1 emptyContainer "missing" =
      some (Except.error (JsError.serviceNotFound "missing"), emptyContainer) :=
  c3_service_not_found.1 0 emptyContainer "missing" rfl

/-! ### Claim C8 -/

/-- A state in which the cached singleton `'a'` is also on the resolution
stack: claim C8 asserts the cache hit then wins; the code's circular check
(line 206) in fact runs first. -/
def c8cfg : ServiceConfig := ⟨Factory.value ⟨5, none⟩, SINGLETON, []⟩

def c8state : Container :=
  { services := [("a", c8cfg)], singletons := [("a", ⟨5, none⟩)],
    configurations := [("a", c8cfg)], circularDependencyCheck := some ["a"],
    nextId := 6, invoked := [] }

/-- Counterexample to C8: in a state where `'a'` has a SINGLETON
descriptor, a cached instance, and sits on the resolution stack, `resolve`
throws `circularDependency` instead of returning the cached instance: the
circular check precedes the cache check. -/
theorem c8_counterexample :
    c8cfg.lifecycle = SINGLETON ∧
    JsMap.get c8state.services "a" = some c8cfg ∧
    JsMap.get c8state.singletons "a" = some ⟨5, none⟩ ∧
    stackContains c8state "a" = true ∧
    resolve 2 c8state "a" =
      some (Except.error (JsError.circularDependency "a"), c8state) :=
  ⟨rfl, rfl, rfl, rfl, rfl⟩

/-- C8 (amended): for a SINGLETON-lifecycle name that is already cached
and NOT currently on the resolution stack, `resolve` returns the cached
instance immediately with no dependency re-resolution, no factory
invocation, and no state change whatsoever; when the name IS on the stack,
the circular-dependency check fires first. -/
theorem c8_cache_hit_first (fuel : Nat) (c : Container) (name : String)
    (config : ServiceConfig) (v : Value)
    (hreg : JsMap.get c.services name = some config)
    (hlc : config.lifecycle = SINGLETON)
    (hv : JsMap.get c.singletons name = some v)
    (hst : stackContains c name = false) :
    resolve (fuel + 1) c name = some (Except.ok v, c) :=
  resolve_cacheHit fuel c name config v hreg hst hlc hv

/-- Witness for C8: a container with a cached singleton `'s'` off the
stack resolves to the cached instance, unchanged container. -/
theorem c8_cache_hit_first_witness :
    resolve 3 (registerValue emptyContainer "s" ⟨9, none⟩) "s" =
      some (Except.ok ⟨9, none⟩, registerValue emptyContainer "s" ⟨9, none⟩) :=
  c8_cache_hit_first 2 (registerValue emptyContainer "s" ⟨9, none⟩) "s"
    ⟨Factory.fn (fun n _ => Except.ok (⟨9, none⟩, n)), SINGLETON, []⟩ ⟨9, none⟩
    rfl rfl rfl rfl

theorem storeSingleton_not_singleton {config : ServiceConfig} (c : Container)
    (name : String) (v : Value) (hns : config.lifecycle ≠ SINGLETON) :
    storeSingleton c name config v = c := if_neg hns

/-! ### Claim C1 -/

/-- `register('a', () => ({}), { lifecycle: 'scoped' })`. -/
def scopedContainer : Container :=
  register emptyContainer "a" freshFactory ⟨some SCOPED, none⟩

def scopedAfter1 : Container := { scopedContainer with nextId := 1, invoked := ["a"] }

def scopedAfter2 : Container :=
  { scopedContainer with nextId := 2, invoked := ["a", "a"] }

/-- Counterexample to C1: a SCOPED service resolved twice invokes the
factory twice (ghost log `["a", "a"]`), caches nothing in the singleton
map, and returns two distinct instances — not the SINGLETON behaviour the
claim asserts. -/
theorem c1_counterexample :
    resolve 2 scopedContainer "a" = some (Except.ok ⟨0, none⟩, scopedAfter1) ∧
    JsMap.get scopedAfter1.singletons "a" = none ∧
    resolve 2 scopedAfter1 "a" = some (Except.ok ⟨1, none⟩, scopedAfter2) ∧
    (⟨1, none⟩ : Value) ≠ (⟨0, none⟩ : Value) ∧
    scopedAfter2.invoked = ["a", "a"] :=
  ⟨rfl, rfl, rfl, by decide, rfl⟩

/-- C1 (amended): a SCOPED-lifecycle service behaves as TRANSIENT, not
SINGLETON: every `resolve` invokes the factory anew and neither reads nor
writes the singleton cache (the conclusion holds whatever
`c.singletons` holds for `name`, and returns a container whose singleton
map is unchanged). -/
theorem c1_scoped_behaves_transient (fuel : Nat) (c : Container) (name : String)
    (config : ServiceConfig) (f : Nat → List Value → Except JsError (Value × Nat))
    (v : Value) (n2 : Nat)
    (hreg : JsMap.get c.services name = some config)
    (hlc : config.lifecycle = SCOPED)
    (hst : stackContains c name = false)
    (hdeps : config.dependencies = [])
    (hf : config.factory = Factory.fn f)
    (hres : f c.nextId [] = Except.ok (v, n2)) :
    resolve (fuel + 1) c name =
      some (Except.ok v, { c with invoked := c.invoked ++ [name], nextId := n2 }) := by
  have hns : config.lifecycle ≠ SINGLETON := by rw [hlc]; decide
  have hnc : ¬(config.lifecycle = SINGLETON ∧ (JsMap.get c.singletons name).isSome) :=
    fun hc => hns hc.1
  rw [resolve_noDeps_fn_ok fuel c name config f v n2 hreg hst hnc hdeps hf hres,
    storeSingleton_not_singleton _ name v hns]

/-- Witness for C1's amended theorem at the concrete SCOPED container. -/
theorem c1_scoped_behaves_transient_witness :
    resolve 3 scopedContainer "a" = some (Except.ok ⟨0, none⟩, scopedAfter1) :=
  c1_scoped_behaves_transient 2 scopedContainer "a" ⟨freshFactory, SCOPED, []⟩
    (fun n _ => Except.ok (⟨n, none⟩, n + 1)) ⟨0, none⟩ 1 rfl rfl rfl rfl rfl rfl

/-! ### Claim C4 -/

/-- C4: (1) a SINGLETON-lifecycle name resolved successfully once resolves
again to the identical instance with no state change at all (hence no new
factory invocation); (2) a TRANSIENT-lifecycle name with a fresh-object
factory resolved twice invokes the factory each time (ghost log grows by
the name twice) and yields two distinct instances. -/
theorem c4_singleton_vs_transient :
    (∀ (fuel fuel' : Nat) (c : Container) (name : String) (config : ServiceConfig)
      (v : Value) (c1 : Container),
      JsMap.get c.services name = some config →
      config.lifecycle = SINGLETON →
      stackContains c name = false →
      resolve fuel c name = some (Except.ok v, c1) →
      resolve (fuel' + 1) c1 name = some (Except.ok v, c1)) ∧
    (∀ (fuel : Nat) (c : Container) (name : String) (config : ServiceConfig),
      JsMap.get c.services name = some config →
      config.lifecycle = TRANSIENT →
      stackContains c name = false →
      config.dependencies = [] →
      config.factory = freshFactory →
      ∃ c1 v1 v2 c2,
        resolve (fuel + 1) c name = some (Except.ok v1, c1) ∧
        resolve (fuel + 1) c1 name = some (Except.ok v2, c2) ∧
        v1 ≠ v2 ∧
        c1.invoked = c.invoked ++ [name] ∧
        c2.invoked = c.invoked ++ [name, name]) := by
  constructor
  · intro fuel fuel' c name config v c1 hreg hlc hst h
    have he := resolve_evolves fuel c name _ c1 h
    have hreg1 : JsMap.get c1.services name = some config := by
      rw [he.1]
      exact hreg
    have hst1 : stackContains c1 name = false := by
      rw [he.2.2.1 name]
      exact hst
    have hv1 : JsMap.get c1.singletons name = some v :=
      resolve_singleton_caches fuel c name config v c1 hreg hlc h
    exact resolve_cacheHit fuel' c1 name config v hreg1 hst1 hlc hv1
  · intro fuel c name config hreg hlc hst hdeps hf
    have hns : config.lifecycle ≠ SINGLETON := by rw [hlc]; decide
    have hnc : ¬(config.lifecycle = SINGLETON ∧ (JsMap.get c.singletons name).isSome) :=
      fun hc => hns hc.1
    refine ⟨{ c with invoked := c.invoked ++ [name], nextId := c.nextId + 1 },
      ⟨c.nextId, none⟩, ⟨c.nextId + 1, none⟩,
      { c with invoked := (c.invoked ++ [name]) ++ [name], nextId := c.nextId + 2 },
      ?_, ?_, ?_, rfl, by simp⟩
    · rw [resolve_noDeps_fn_ok fuel c name config
        (fun n _ => Except.ok (⟨n, none⟩, n + 1)) ⟨c.nextId, none⟩ (c.nextId + 1)
        hreg hst hnc hdeps (by rw [hf]; rfl) rfl,
        storeSingleton_not_singleton _ name _ hns]
    · have h2 := resolve_noDeps_fn_ok fuel
        { c with invoked := c.invoked ++ [name], nextId := c.nextId + 1 } name config
        (fun n _ => Except.ok (⟨n, none⟩, n + 1)) ⟨c.nextId + 1, none⟩ (c.nextId + 2)
        hreg hst hnc hdeps (by rw [hf]; rfl) rfl
      rw [storeSingleton_not_singleton _ name _ hns] at h2
      exact h2
    · intro h
      have hid : c.nextId = c.nextId + 1 := congrArg Value.id h
      omega

/-- `register('s', () => ({}))` and its state after one resolution. -/
def c4base : Container := register emptyContainer "s" freshFactory ⟨none, none⟩

def c4after : Container :=
  { c4base with singletons := [("s", ⟨0, none⟩)], nextId := 1, invoked := ["s"] }

/-- Witness for C4: the cached singleton `'s'` resolves again to the same
instance with the container unchanged. -/
theorem c4_singleton_vs_transient_witness :
    resolve 1 c4after "s" = some (Except.ok ⟨0, none⟩, c4after) :=
  c4_singleton_vs_transient.1 2 0 c4base "s" ⟨freshFactory, SINGLETON, []⟩
    ⟨0, none⟩ c4after rfl rfl rfl rfl

/-! ### Claim C5 -/

/-- `register('x', () => { throw 'boom' })` then `register('y', () => ({}))`. -/
def c5xy : Container :=
  register (register emptyContainer "x" (throwFactory "boom") ⟨none, none⟩)
    "y" freshFactory ⟨none, none⟩

def c5xyAfter : Container := { c5xy with invoked := ["x"] }

/-- C5: (1) any completed `resolve`, normal or exceptional, restores the
membership of the resolution stack exactly; (2) a factory that throws
propagates its exception unchanged — same error value, no wrapping — with
exactly one invocation logged and no other state change; (3) concretely,
after `resolve('x')` fails with `'boom'`, resolving the unrelated `'y'`
succeeds and resolving `'x'` again fails with `'boom'` again, never with
`circularDependency`. -/
theorem c5_factory_error_propagation :
    (∀ (fuel : Nat) (c : Container) (name : String)
      (r : Except JsError Value) (c' : Container),
      resolve fuel c name = some (r, c') →
      ∀ x, stackContains c' x = stackContains c x) ∧
    (∀ (fuel : Nat) (c : Container) (name : String) (config : ServiceConfig)
      (f : Nat → List Value → Except JsError (Value × Nat)) (e : JsError),
      JsMap.get c.services name = some config →
      stackContains c name = false →
      ¬(config.lifecycle = SINGLETON ∧ (JsMap.get c.singletons name).isSome) →
      config.dependencies = [] →
      config.factory = Factory.fn f →
      f c.nextId [] = Except.error e →
      resolve (fuel + 1) c name =
        some (Except.error e, { c with invoked := c.invoked ++ [name] })) ∧
    (resolve 2 c5xy "x" = some (Except.error (JsError.userError "boom"), c5xyAfter)) ∧
    (outcome (resolve 2 c5xyAfter "y") = some (Except.ok ⟨0, none⟩)) ∧
    (outcome (resolve 2 c5xyAfter "x") =
      some (Except.error (JsError.userError "boom"))) := by
  refine ⟨?_, resolve_noDeps_fn_error, rfl, rfl, rfl⟩
  intro fuel c name r c' h x
  exact (resolve_evolves fuel c name r c' h).2.2.1 x

/-- Witness for C5: the throwing factory of `'x'` propagates `'boom'`
unchanged, logging exactly one invocation. -/
theorem c5_factory_error_propagation_witness :
    resolve 4 c5xy "x" = some (Except.error (JsError.userError "boom"), c5xyAfter) :=
  c5_factory_error_propagation.2.1 3 c5xy "x" ⟨throwFactory "boom", SINGLETON, []⟩
    (fun _ _ => Except.error (JsError.userError "boom")) (JsError.userError "boom")
    rfl rfl (fun h => Bool.false_ne_true h.2) rfl rfl rfl

/-! ### Claim C10 -/

/-- C10: `register` never touches the singleton cache, and re-registering
a cached SINGLETON name with a new factory leaves the old instance in
place: a later resolve returns the old instance with the container (hence
the ghost invocation log) unchanged, so the new factory is never invoked. -/
theorem c10_register_preserves_cache :
    (∀ (c : Container) (name : String) (f : Factory) (o : RegisterOptions),
      (register c name f o).singletons = c.singletons) ∧
    (∀ (fuel : Nat) (c : Container) (name : String) (f : Factory)
      (o : RegisterOptions) (v : Value),
      o.lifecycle.getD SINGLETON = SINGLETON →
      JsMap.get c.singletons name = some v →
      stackContains c name = false →
      resolve (fuel + 1) (register c name f o) name =
        some (Except.ok v, register c name f o)) := by
  refine ⟨fun c name f o => rfl, ?_⟩
  intro fuel c name f o v hlc hv hst
  apply resolve_cacheHit fuel _ name
    ⟨f, o.lifecycle.getD SINGLETON, o.dependencies.getD []⟩ v
  · show JsMap.get (JsMap.set c.services name _) name = _
    rw [JsMap.get_set, if_pos rfl]
  · exact hst
  · exact hlc
  · exact hv

/-- Witness for C10: re-registering the cached `'s'` with a throwing
factory still resolves to the old instance — the new factory would have
thrown had it been invoked. -/
theorem c10_register_preserves_cache_witness :
    resolve 1 (register c4after "s" (throwFactory "newFactory") ⟨some SINGLETON, none⟩) "s" =
      some (Except.ok ⟨0, none⟩,
        register c4after "s" (throwFactory "newFactory") ⟨some SINGLETON, none⟩) :=
  c10_register_preserves_cache.2 0 c4after "s" (throwFactory "newFactory")
    ⟨some SINGLETON, none⟩ ⟨0, none⟩ rfl rfl rfl

/-! ### Copying and disposal lemmas -/

theorem JsMap.set_eq_append {α : Type} (m : JsMap α) (k : String) (v : α)
    (h : JsMap.get m k = none) : JsMap.set m k v = m ++ [(k, v)] := by
  induction m with
  | nil => rfl
  | cons e rest ih =>
    obtain ⟨a, w⟩ := e
    by_cases hak : a = k
    · subst hak
      simp [JsMap.get] at h
    · simp only [JsMap.get, if_neg hak] at h
      simp [JsMap.set, hak, ih h]

theorem JsMap.foldl_set_append {α : Type} :
    ∀ (m : JsMap α) (acc : JsMap α),
      (JsMap.keys m).Nodup →
      (∀ k, k ∈ JsMap.keys m → JsMap.get acc k = none) →
      m.foldl (fun acc2 e => JsMap.set acc2 e.1 e.2) acc = acc ++ m := by
  intro m
  induction m with
  | nil =>
    intro acc _ _
    simp
  | cons e rest ih =>
    intro acc hnd hacc
    obtain ⟨a, w⟩ := e
    simp only [List.foldl_cons]
    rw [JsMap.set_eq_append acc a w (hacc a (by simp [JsMap.keys]))]
    simp only [JsMap.keys, List.map_cons, List.nodup_cons] at hnd
    have hacc2 : ∀ k, k ∈ JsMap.keys rest → JsMap.get (acc ++ [(a, w)]) k = none := by
      intro k hk
      rw [JsMap.get_append]
      rw [hacc k (List.mem_cons_of_mem a hk)]
      have hka : ¬ a = k := fun he => hnd.1 (by rw [he]; exact hk)
      simp [JsMap.get, hka]
    rw [ih (acc ++ [(a, w)]) hnd.2 hacc2]
    simp

/-- The copy loop of `createChild` reproduces the copied map exactly
(JavaScript `Map`s never hold duplicate keys). -/
theorem JsMap.copy_eq_self {α : Type} (m : JsMap α)
    (h : (JsMap.keys m).Nodup) : JsMap.copy m = m := by
  have haux := JsMap.foldl_set_append m [] h (fun k _ => rfl)
  simpa [JsMap.copy] using haux

/-- The `dispose()` loop invokes `dispose` on exactly the singleton-map
entries whose instance exposes one, in insertion order. -/
theorem disposeLog_eq_filter (m : JsMap Value) :
    disposeLog m = m.filter (fun p => (p.2).disposeMethod.isSome) := by
  induction m with
  | nil => rfl
  | cons e rest ih =>
    obtain ⟨n, v⟩ := e
    rw [List.filter_cons]
    cases hd : v.disposeMethod with
    | none => simp [disposeLog, hd, ih]
    | some d => simp [disposeLog, hd, ih]

/-! ### Claim C6 -/

/-- `registerValue('a', v)` and `registerValue('b', v)` with the same
disposable instance `v` cached under both names. -/
def c6shared : Container :=
  registerValue (registerValue emptyContainer "a" ⟨7, some none⟩) "b" ⟨7, some none⟩

/-- Counterexample to C6: the same disposable instance cached under two
names has its disposal operation invoked once per map entry — twice, not
"exactly once per distinct cached singleton instance". -/
theorem c6_counterexample :
    JsMap.get c6shared.singletons "a" = some ⟨7, some none⟩ ∧
    JsMap.get c6shared.singletons "b" = some ⟨7, some none⟩ ∧
    (dispose c6shared).1 = [("a", ⟨7, some none⟩), ("b", ⟨7, some none⟩)] ∧
    ((dispose c6shared).1.filter (fun p => (p.2).id == 7)).length = 2 :=
  ⟨rfl, rfl, rfl, rfl⟩

/-- C6 (amended): `dispose()` invokes the disposal operation exactly once
per singletons-map entry whose instance exposes one (in insertion order),
and then empties all three maps; hence it disposes each distinct instance
exactly once whenever that instance is cached under at most one name, but
an instance cached under several names is disposed once per name. -/
theorem c6_dispose_per_entry :
    (∀ c : Container,
      (dispose c).1 = c.singletons.filter (fun p => (p.2).disposeMethod.isSome)) ∧
    (∀ c : Container,
      (dispose c).2.services = [] ∧ (dispose c).2.singletons = [] ∧
      (dispose c).2.configurations = []) ∧
    (∀ (c : Container) (i : Nat),
      (c.singletons.filter (fun p => (p.2).id == i)).length ≤ 1 →
      ((dispose c).1.filter (fun p => (p.2).id == i)).length ≤ 1) := by
  refine ⟨fun c => disposeLog_eq_filter c.singletons, fun c => ⟨rfl, rfl, rfl⟩, ?_⟩
  intro c i h
  have hlog : (dispose c).1 = c.singletons.filter (fun p => (p.2).disposeMethod.isSome) :=
    disposeLog_eq_filter c.singletons
  rw [hlog]
  exact Nat.le_trans
    (List.Sublist.length_le
      (List.Sublist.filter _ (List.filter_sublist c.singletons)))
    h

/-- Witness for C6's amended theorem: an instance cached under a single
name is disposed at most once. -/
theorem c6_dispose_per_entry_witness :
    (((dispose (registerValue emptyContainer "a" ⟨7, some none⟩)).1.filter
      (fun p => (p.2).id == 7)).length ≤ 1) :=
  c6_dispose_per_entry.2.2 (registerValue emptyContainer "a" ⟨7, some none⟩) 7
    (by decide)

/-! ### Claim C9 -/

/-- C9: `createChild` returns a container whose `services` and `singletons`
equal the parent's at the moment of the call (snapshot), with a fresh
(empty) resolution stack; operations on the child are functions of the
child state only — concretely, re-registering `'s'` on the child with a
TRANSIENT fresh-object factory makes the child resolve `'s'` to a new
instance while the parent still resolves `'s'` to its original cached
instance with its state unchanged. -/
theorem c9_createChild_snapshot :
    (∀ c : Container, (JsMap.keys c.services).Nodup →
      (createChild c).services = c.services ∧
      (createChild c).configurations = c.services) ∧
    (∀ c : Container, (JsMap.keys c.singletons).Nodup →
      (createChild c).singletons = c.singletons) ∧
    (∀ (c : Container) (x : String), stackContains (createChild c) x = false) ∧
    (outcome (resolve 2 (register (createChild c4after) "s" freshFactory
      ⟨some TRANSIENT, none⟩) "s") = some (Except.ok ⟨1, none⟩)) ∧
    (resolve 1 c4after "s" = some (Except.ok ⟨0, none⟩, c4after)) := by
  refine ⟨?_, ?_, fun c x => rfl, rfl, rfl⟩
  · intro c hnd
    exact ⟨JsMap.copy_eq_self c.services hnd, JsMap.copy_eq_self c.services hnd⟩
  · intro c hnd
    exact JsMap.copy_eq_self c.singletons hnd

/-- Witness for C9 at the concrete parent `c4after`. -/
theorem c9_createChild_snapshot_witness :
    (createChild c4after).services = c4after.services ∧
    (createChild c4after).singletons = c4after.singletons :=
  ⟨(c9_createChild_snapshot.1 c4after (by decide)).1,
    c9_createChild_snapshot.2.1 c4after (by decide)⟩

/-! ### Claim C7: states reachable by the public operations -/

/-- The public operations of the container, for reachable-state claims.
`resolve` with insufficient fuel (impossible in the source, whose recursion
is unbounded but — by `resolve_total` — always finishes) is a no-op. -/
inductive Op where
  | register (name : String) (factory : Factory) (options : RegisterOptions)
  | registerValue (name : String) (v : Value)
  | resolve (fuel : Nat) (name : String)
  | unregister (name : String)
  | clear
  | dispose
  | createChild

def applyOp (c : Container) : Op → Container
  | Op.register n f o => register c n f o
  | Op.registerValue n v => registerValue c n v
  | Op.resolve fuel n =>
    match resolve fuel c n with
    | some (_, c') => c'
    | none => c
  | Op.unregister n => (unregister c n).2
  | Op.clear => clear c
  | Op.dispose => (dispose c).2
  | Op.createChild => createChild c

def run : Container → List Op → Container
  | c, [] => c
  | c, op :: ops => run (applyOp c op) ops

/-- The inductive state invariant: every cached singleton name has a
descriptor, and both maps have duplicate-free keys. -/
def ContainerInv (c : Container) : Prop :=
  (∀ n, (JsMap.get c.singletons n).isSome → (JsMap.get c.services n).isSome) ∧
  (JsMap.keys c.services).Nodup ∧
  (JsMap.keys c.singletons).Nodup

theorem applyOp_inv (c : Container) (op : Op) (h : ContainerInv c) :
    ContainerInv (applyOp c op) := by
  obtain ⟨hreg, hnds, hndg⟩ := h
  cases op with
  | register n f o =>
    refine ⟨?_, JsMap.keys_set_nodup _ _ _ hnds, hndg⟩
    intro m hm
    show (JsMap.get (JsMap.set c.services n _) m).isSome
    rw [JsMap.get_set]
    by_cases hmn : m = n
    · rw [if_pos hmn]
      rfl
    · rw [if_neg hmn]
      exact hreg m hm
  | registerValue n v =>
    refine ⟨?_, JsMap.keys_set_nodup _ _ _ hnds, JsMap.keys_set_nodup _ _ _ hndg⟩
    intro m hm
    show (JsMap.get (JsMap.set c.services n _) m).isSome
    rw [JsMap.get_set]
    by_cases hmn : m = n
    · rw [if_pos hmn]
      rfl
    · rw [if_neg hmn]
      apply hreg m
      have hm2 : (JsMap.get (JsMap.set c.singletons n v) m).isSome := hm
      rw [JsMap.get_set, if_neg hmn] at hm2
      exact hm2
  | resolve fuel n =>
    show ContainerInv (match resolve fuel c n with
      | some (_, c') => c'
      | none => c)
    cases hr : resolve fuel c n with
    | none => exact ⟨hreg, hnds, hndg⟩
    | some p =>
      obtain ⟨r, c'⟩ := p
      obtain ⟨hs, hc, hst, hg, ho, hnd⟩ := resolve_evolves fuel c n r c' hr
      refine ⟨?_, by rw [hs]; exact hnds, hnd hndg⟩
      intro m hm
      rw [hs]
      rcases hg m hm with hold | hserv
      · exact hreg m hold
      · exact hserv
  | unregister n =>
    refine ⟨?_, List.Nodup.sublist (JsMap.keys_del_sublist c.services n) hnds,
      List.Nodup.sublist (JsMap.keys_del_sublist c.singletons n) hndg⟩
    intro m hm
    by_cases hmn : m = n
    · subst hmn
      have hm2 : (JsMap.get (JsMap.del c.singletons m) m).isSome := hm
      rw [JsMap.get_del_self c.singletons m hndg] at hm2
      cases hm2
    · have hm2 : (JsMap.get (JsMap.del c.singletons n) m).isSome := hm
      rw [JsMap.get_del_ne c.singletons n m hmn] at hm2
      show (JsMap.get (JsMap.del c.services n) m).isSome
      rw [JsMap.get_del_ne c.services n m hmn]
      exact hreg m hm2
  | clear =>
    exact ⟨fun m hm => (Bool.false_ne_true hm).elim, List.nodup_nil, List.nodup_nil⟩
  | dispose =>
    exact ⟨fun m hm => (Bool.false_ne_true hm).elim, List.nodup_nil, List.nodup_nil⟩
  | createChild =>
    show ContainerInv (createChild c)
    have hs : (createChild c).services = c.services := JsMap.copy_eq_self _ hnds
    have hg : (createChild c).singletons = c.singletons := JsMap.copy_eq_self _ hndg
    refine ⟨?_, by rw [hs]; exact hnds, by rw [hg]; exact hndg⟩
    intro m hm
    rw [hs]
    rw [hg] at hm
    exact hreg m hm

theorem run_inv : ∀ (ops : List Op) (c : Container), ContainerInv c →
    ContainerInv (run c ops) := by
  intro ops
  induction ops with
  | nil =>
    intro c h
    exact h
  | cons op ops ih =>
    intro c h
    exact ih (applyOp c op) (applyOp_inv c op h)

theorem emptyContainer_inv : ContainerInv emptyContainer :=
  ⟨fun _ hm => (Bool.false_ne_true hm).elim, List.nodup_nil, List.nodup_nil⟩

/-- C7 (amended): in every container state reachable from a fresh container
by the public operations, every name present in the singletons map has a
corresponding descriptor in the services map.  The original claim's
stronger guarantee — that this descriptor's lifecycle is SINGLETON unless
the name was pinned via registerValue — does not hold: re-registering a
resolved SINGLETON under a different lifecycle keeps the cached instance
(see the counterexample). -/
theorem c7_singletons_have_descriptors (ops : List Op) (n : String)
    (h : (JsMap.get (run emptyContainer ops).singletons n).isSome) :
    (JsMap.get (run emptyContainer ops).services n).isSome :=
  (run_inv ops emptyContainer emptyContainer_inv).1 n h

/-- Witness for C7: after `registerValue('a', v)` the cached `'a'` has a
descriptor. -/
theorem c7_singletons_have_descriptors_witness :
    (JsMap.get (run emptyContainer [Op.registerValue "a" ⟨1, none⟩]).services "a").isSome :=
  c7_singletons_have_descriptors [Op.registerValue "a" ⟨1, none⟩] "a" rfl

/-- register SINGLETON → resolve (caches) → re-register TRANSIENT. -/
def c7ops : List Op :=
  [Op.register "a" freshFactory ⟨some SINGLETON, none⟩,
   Op.resolve 2 "a",
   Op.register "a" freshFactory ⟨some TRANSIENT, none⟩]

def c7state : Container := run emptyContainer c7ops

/-- Counterexample to C7: a reachable state in which `'a'` sits in the
singletons map while its descriptor's lifecycle is TRANSIENT and no
`registerValue` ever ran. -/
theorem c7_counterexample :
    (JsMap.get c7state.singletons "a").isSome ∧
    ¬((∃ cfg, JsMap.get c7state.services "a" = some cfg ∧
        cfg.lifecycle = SINGLETON) ∨
      (∃ v, Op.registerValue "a" v ∈ c7ops)) := by
  constructor
  · rfl
  · intro hor
    rcases hor with ⟨cfg, hcfg, hlc⟩ | ⟨v, hmem⟩
    · rw [show JsMap.get c7state.services "a" =
        some ⟨freshFactory, TRANSIENT, []⟩ from rfl] at hcfg
      cases hcfg
      exact absurd hlc (by decide)
    · simp [c7ops] at hmem

end DIC
